import Mathlib

/-!
Verification of the download orchestration subsystem of
google-photos-picker-sync (the Bun relay server: `generateDownloadUrl`,
`downloadFile`, `processDownloads`, and the four `/api/*` handlers).

The TypeScript source is shallowly embedded: the data model becomes Lean
structures, the orchestrator loop becomes a structural recursion over the
item list, and the in-memory maps plus the staging filesystem become an
explicit `Store` record threaded through the handlers.  The outcome of one
authenticated network fetch (`downloadFile`) is abstracted by an oracle
`Nat → String → Except String (List Nat)` giving, for the i-th item and the
derived download URL, either the fetched bytes or the stringified thrown
error; everything else is translated directly from the source.

Observability model: the server is single-threaded (Bun's event loop), so a
`/api/progress` poll can only be served while the orchestrator is suspended
at an `await` (the fetch inside `downloadFile`, or the 100 ms politeness
delay) or after it returned.  Each such suspension point is immediately
preceded by a `downloadProgress.set(progressId, { ...progress })` snapshot
write (source lines 241 and 266), and the items that fail validation
(`continue`) suspend nowhere, so the observable progress records are exactly
the snapshots written on the two sides of each attempted fetch plus the
final record.  `LoopState.emits` collects those observable snapshots in
chronological order.
-/

namespace PhotosSync

/-- `interface MediaFile` of the source: filename, baseUrl and mimeType of
one picked media item. -/
structure MediaFile where
  filename : String
  baseUrl : String
  mimeType : String
deriving DecidableEq

/-- `type: "PHOTO" | "VIDEO"` of `interface MediaItem`. -/
inductive MediaType where
  | PHOTO
  | VIDEO
deriving DecidableEq

/-- `interface MediaItem`.  `mediaFile` is optional because the orchestrator
guards with `mediaFile?.filename` (the JS value may be undefined). -/
structure MediaItem where
  id : String
  createTime : String
  type : MediaType
  mediaFile : Option MediaFile
deriving DecidableEq

/-- `imageQuality: "original" | "high" | "medium" | "low"`. -/
inductive ImageQuality where
  | original
  | high
  | medium
  | low
deriving DecidableEq

/-- `videoQuality: "original" | "high" | "thumbnail"`. -/
inductive VideoQuality where
  | original
  | high
  | thumbnail
deriving DecidableEq

/-- `downloadSettings` of `interface SessionData`.  The optional numeric
fields are `Option Nat`; JS truthiness (`undefined` and `0` are falsy) is
modelled by `natTruthy` below. -/
structure DownloadSettings where
  includePhotos : Bool
  includeVideos : Bool
  imageQuality : ImageQuality
  imageMaxWidth : Option Nat
  imageMaxHeight : Option Nat
  imageCrop : Bool
  videoQuality : VideoQuality
  videoRemoveOverlay : Bool
deriving DecidableEq

/-- `interface SessionData` (the POST /api/download body). -/
structure SessionData where
  oauthToken : String
  sessionId : String
  mediaItems : List MediaItem
  downloadSettings : Option DownloadSettings
  timestamp : String
deriving DecidableEq

/-- One element of `DownloadProgress.files`:
`{ filename: string; size: number; ready: boolean }`. -/
structure FileEntry where
  filename : String
  size : Nat
  ready : Bool
deriving DecidableEq

/-- `interface DownloadProgress` (the per-session progress record). -/
structure DownloadProgress where
  total : Nat
  downloaded : Nat
  failed : Nat
  currentFile : Option String
  isComplete : Bool
  errors : List String
  files : List FileEntry
deriving DecidableEq

/-- JS truthiness of an optional number: `undefined` and `0` are falsy. -/
def natTruthy : Option Nat → Bool
  | some n => n != 0
  | none => false

/-- `s.startsWith(p)` of JS (and Lean's `String.startsWith`): `p` is a
prefix of `s`.  Stated as a character-list prefix test so the kernel can
evaluate it on concrete strings. -/
def strStartsWith (s p : String) : Bool :=
  List.isPrefixOf p.data s.data

/-- `const isVideo = mediaType === "VIDEO" || mimeType.startsWith("video/")`
(computed identically at source lines 120 and 124). -/
def isVideoFlag (mediaType : MediaType) (mimeType : String) : Bool :=
  (mediaType == MediaType.VIDEO) || strStartsWith mimeType "video/"

/-- Width/height preset table of the `switch (settings.imageQuality)`
statement; `none` is the unreachable `default:` branch (reachable in JS only
for strings outside the enum), which falls back to `=d`. -/
def imagePreset : ImageQuality → Option (Nat × Nat)
  | ImageQuality.high => some (2048, 2048)
  | ImageQuality.medium => some (1024, 1024)
  | ImageQuality.low => some (512, 512)
  | ImageQuality.original => none

/-- `generateDownloadUrl` (source lines 112-179): derive the concrete
download locator from the base URL, the media type, the MIME type and the
optional download settings. -/
def generateDownloadUrl (baseUrl : String) (mediaType : MediaType)
    (mimeType : String) (settings : Option DownloadSettings) : String :=
  match settings with
  | none =>
    if isVideoFlag mediaType mimeType then baseUrl ++ "=dv" else baseUrl ++ "=d"
  | some s =>
    if isVideoFlag mediaType mimeType then
      match s.videoQuality with
      | VideoQuality.thumbnail =>
        let params := "w1280-h720"
        let params := if s.videoRemoveOverlay then params ++ "-no" else params
        baseUrl ++ "=" ++ params
      | _ => baseUrl ++ "=dv"
    else
      if s.imageQuality == ImageQuality.original then baseUrl ++ "=d"
      else
        let dims : Option (Nat × Nat) :=
          if natTruthy s.imageMaxWidth && natTruthy s.imageMaxHeight then
            match s.imageMaxWidth, s.imageMaxHeight with
            | some w, some h => some (w, h)
            | _, _ => imagePreset s.imageQuality
          else imagePreset s.imageQuality
        match dims with
        | none => baseUrl ++ "=d"
        | some (width, height) =>
          let params := "w" ++ Nat.repr width ++ "-h" ++ Nat.repr height
          let params := if s.imageCrop then params ++ "-c" else params
          baseUrl ++ "=" ++ params

/-- The environment of one batch run: for the i-th item and the derived
download URL, the outcome of `downloadFile` (source lines 181-202) — either
the fetched byte payload (written to the staging file; its length is the
returned size) or the string form of the thrown error
(`HTTP {status}: {statusText}` wrapped by JS as `Error: ...`). -/
abbrev FetchOracle : Type := Nat → String → Except String (List Nat)

/-- The staged files on disk: path to byte content. -/
abbrev Fs : Type := List (String × List Nat)

/-- `writeFileSync(filepath, buffer)`: create or overwrite one staged file. -/
def fsWrite (fs : Fs) (path : String) (bytes : List Nat) : Fs :=
  fs.filter (fun kv => !(kv.1 == path)) ++ [(path, bytes)]

/-- How one loop iteration of `processDownloads` resolves the i-th item:
validation failure (`!mediaFile?.filename || !mediaFile?.baseUrl`, where the
falsy string is the empty one), a successful fetch, or a thrown fetch
error. -/
inductive ItemOutcome where
  | missing
  | fetched (mf : MediaFile) (bytes : List Nat)
  | failedFetch (mf : MediaFile) (e : String)

/-- Classify the i-th item exactly as the loop body does: the validation
guard of source line 231, then `generateDownloadUrl` + `downloadFile`
(source lines 246-252) via the oracle. -/
def classifyItem (oracle : FetchOracle) (settings : Option DownloadSettings)
    (i : Nat) (item : MediaItem) : ItemOutcome :=
  match item.mediaFile with
  | none => ItemOutcome.missing
  | some mf =>
    if mf.filename = "" ∨ mf.baseUrl = "" then ItemOutcome.missing
    else
      match oracle i (generateDownloadUrl mf.baseUrl item.type mf.mimeType settings) with
      | Except.ok bytes => ItemOutcome.fetched mf bytes
      | Except.error e => ItemOutcome.failedFetch mf e

/-- State carried by the orchestrator loop: the live progress record, the
staged files, and the chronological list of observable snapshots (the
`downloadProgress.set(progressId, { ...progress })` writes that precede a
suspension point — see the header comment). -/
structure LoopState where
  prog : DownloadProgress
  fs : Fs
  emits : List DownloadProgress
deriving DecidableEq

/-- One iteration of the `for` loop of `processDownloads`
(source lines 227-270).  A missing-data item (source lines 231-235)
increments `failed`, appends the index-based message and `continue`s —
emitting no snapshot, since its iteration reaches no `await`.  A valid item
emits the pre-fetch snapshot (line 241, observable during the fetch) and the
post-outcome snapshot (line 266, observable during the politeness delay). -/
def procItem (oracle : FetchOracle) (settings : Option DownloadSettings)
    (tempDir : String) (i : Nat) (item : MediaItem)
    (p : DownloadProgress) (fs : Fs) : LoopState :=
  match classifyItem oracle settings i item with
  | ItemOutcome.missing =>
    let p1 := { p with
      failed := p.failed + 1
      errors := p.errors ++ ["Item " ++ Nat.repr (i + 1) ++ ": Missing filename or baseUrl"] }
    ⟨p1, fs, []⟩
  | ItemOutcome.fetched mf bytes =>
    let p1 := { p with currentFile := some mf.filename }
    let p2 := { p1 with
      downloaded := p1.downloaded + 1
      files := p1.files ++ [⟨mf.filename, bytes.length, true⟩] }
    ⟨p2, fsWrite fs (tempDir ++ "/" ++ mf.filename) bytes, [p1, p2]⟩
  | ItemOutcome.failedFetch mf e =>
    let p1 := { p with currentFile := some mf.filename }
    let p2 := { p1 with
      failed := p1.failed + 1
      errors := p1.errors ++ [mf.filename ++ ": " ++ e] }
    ⟨p2, fs, [p1, p2]⟩

/-- The whole `for` loop, starting at item index `i` with live record `p`
and staged files `fs`. -/
def procList (oracle : FetchOracle) (settings : Option DownloadSettings)
    (tempDir : String) : List MediaItem → Nat → DownloadProgress → Fs → LoopState
  | [], _, p, fs => ⟨p, fs, []⟩
  | item :: rest, i, p, fs =>
    let s1 := procItem oracle settings tempDir i item p fs
    let s2 := procList oracle settings tempDir rest (i + 1) s1.prog s1.fs
    ⟨s2.prog, s2.fs, s1.emits ++ s2.emits⟩

/-- The progress record as initialized at source lines 215-223. -/
def initProgress (n : Nat) : DownloadProgress :=
  ⟨n, 0, 0, none, false, [], []⟩

/-- Source lines 272-275: mark the record complete and clear the current
file after the loop. -/
def finalizeRec (p : DownloadProgress) : DownloadProgress :=
  { p with isComplete := true, currentFile := none }

/-- The pure core of `processDownloads` (source lines 204-276, staging
directory already in place): initialize, run the loop over all items, mark
complete.  `emits` ends with the final record, which is the last observable
snapshot (source line 275) and stays in the store afterwards. -/
def runDownloads (oracle : FetchOracle) (settings : Option DownloadSettings)
    (tempDir : String) (items : List MediaItem) (fs : Fs) : LoopState :=
  let s := procList oracle settings tempDir items 0 (initProgress items.length) fs
  ⟨finalizeRec s.prog, s.fs, s.emits ++ [finalizeRec s.prog]⟩

/-- In-memory server state: the two global maps
(`downloadProgress`, `downloadDirs`) and the relevant filesystem state
(existing directories and staged files). -/
structure Store where
  progressMap : List (String × DownloadProgress)
  dirsMap : List (String × String)
  fsDirs : List String
  fsFiles : Fs
deriving DecidableEq

/-- `Map.prototype.set`: overwrite-or-insert one key. -/
def setEntry (m : List (String × α)) (k : String) (v : α) : List (String × α) :=
  m.filter (fun kv => !(kv.1 == k)) ++ [(k, v)]

/-- `Map.prototype.delete`. -/
def eraseEntry (m : List (String × α)) (k : String) : List (String × α) :=
  m.filter (fun kv => !(kv.1 == k))

/-- `join(tmpdir(), "google-photos-sync-" + progressId)` (source line 208);
the OS temp root is modelled as the fixed path `/tmp`. -/
def tmpDirFor (progressId : String) : String :=
  "/tmp" ++ "/" ++ ("google-photos-sync-" ++ progressId)

/-- `processDownloads` as launched in the background by the POST
/api/download handler (source lines 204-276 and 292): create the staging
directory (a `mkdirSync` failure rejects the background promise, which is
swallowed by `.catch(console.error)` — nothing is recorded), register it in
`downloadDirs`, then run the loop and leave the final record in
`downloadProgress`.  `mkdirOk` tells whether `mkdirSync` succeeds when the
directory must be created. -/
def processDownloads (oracle : FetchOracle) (body : SessionData)
    (progressId : String) (mkdirOk : Bool) (st : Store) : Store :=
  let tempDir := tmpDirFor progressId
  if tempDir ∈ st.fsDirs ∨ mkdirOk = true then
    let fsDirs1 := if tempDir ∈ st.fsDirs then st.fsDirs else st.fsDirs ++ [tempDir]
    let st1 := { st with fsDirs := fsDirs1, dirsMap := setEntry st.dirsMap progressId tempDir }
    let run := runDownloads oracle body.downloadSettings tempDir body.mediaItems st1.fsFiles
    { st1 with
      fsFiles := run.fs
      progressMap := setEntry st1.progressMap progressId run.prog }
  else st

/-- The session identifier minted by the POST /api/download handler:
`` `download-${Date.now()}` `` (source line 289), for clock value `now`. -/
def sessionIdOf (now : Nat) : String :=
  "download-" ++ Nat.repr now

/-- Response of POST /api/download. -/
structure StartResponse where
  status : Nat
  success : Bool
  progressId : Option String
deriving DecidableEq

/-- POST /api/download handler (source lines 286-308): parse the body
(`none` models a JSON parse failure, the only thing the `try`/`catch`
catches), mint `download-${Date.now()}` as the session id, fire the
background task and reply with success immediately.  `now` is the
observed `Date.now()` clock value. -/
def handleDownload (oracle : FetchOracle) (body : Option SessionData)
    (now : Nat) (mkdirOk : Bool) (st : Store) : StartResponse × Store :=
  match body with
  | none => (⟨400, false, none⟩, st)
  | some b =>
    let progressId := sessionIdOf now
    (⟨200, true, some progressId⟩, processDownloads oracle b progressId mkdirOk st)

/-- GET /api/progress handler (source lines 311-329): missing/empty `id`
is 400, unknown session 404, otherwise the record is returned; the state
is only read. -/
def handleProgress (idArg : Option String) (st : Store) :
    (Nat × Option DownloadProgress) × Store :=
  match idArg with
  | none => ((400, none), st)
  | some pid =>
    if pid = "" then ((400, none), st)
    else
      match st.progressMap.lookup pid with
      | none => ((404, none), st)
      | some p => ((200, some p), st)

/-- GET /api/file handler (source lines 332-357): missing/empty params are
400, unknown session or absent staged file 404, otherwise the staged bytes
are returned; the state is only read. -/
def handleFile (progressIdArg filenameArg : Option String) (st : Store) :
    (Nat × Option (List Nat)) × Store :=
  match progressIdArg, filenameArg with
  | some pid, some fn =>
    if pid = "" ∨ fn = "" then ((400, none), st)
    else
      match st.dirsMap.lookup pid with
      | none => ((404, none), st)
      | some dir =>
        match st.fsFiles.lookup (dir ++ "/" ++ fn) with
        | none => ((404, none), st)
        | some bytes => ((200, some bytes), st)
  | _, _ => ((400, none), st)

/-- Response of POST /api/cleanup. -/
structure CleanupResponse where
  status : Nat
  success : Bool
deriving DecidableEq

/-- POST /api/cleanup handler (source lines 360-376): when the session has a
registered staging directory that still exists, remove it recursively
(`rmOk` tells whether `rmSync` succeeds; a failure is a 500 that leaves both
maps untouched) and delete both map entries; in every other case reply
success without touching anything. -/
def handleCleanup (progressId : String) (rmOk : Bool) (st : Store) :
    CleanupResponse × Store :=
  match st.dirsMap.lookup progressId with
  | some tempDir =>
    if tempDir ∈ st.fsDirs then
      if rmOk then
        (⟨200, true⟩,
          { progressMap := eraseEntry st.progressMap progressId
            dirsMap := eraseEntry st.dirsMap progressId
            fsDirs := st.fsDirs.filter (fun d => !(d == tempDir))
            fsFiles := st.fsFiles.filter (fun kv => !(strStartsWith kv.1 (tempDir ++ "/"))) })
      else (⟨500, false⟩, st)
    else (⟨200, true⟩, st)
  | none => (⟨200, true⟩, st)

/-- Growth order between observable progress records: counters never
decrease and completion never reverts. -/
def ProgLe (a b : DownloadProgress) : Prop :=
  a.downloaded ≤ b.downloaded ∧ a.failed ≤ b.failed ∧
    (a.isComplete = true → b.isComplete = true)

/-- The file entries of the successfully fetched items, in input order:
the order-preservation specification that the final `files` list is
compared against. -/
def successList (oracle : FetchOracle) (settings : Option DownloadSettings)
    (start : Nat) (items : List MediaItem) : List FileEntry :=
  (List.enumFrom start items).filterMap fun pair =>
    match classifyItem oracle settings pair.1 pair.2 with
    | ItemOutcome.fetched mf bytes => some ⟨mf.filename, bytes.length, true⟩
    | _ => none

/-- The error messages of the failed items, in input order: the
order-preservation specification that the final `errors` list is compared
against. -/
def errorList (oracle : FetchOracle) (settings : Option DownloadSettings)
    (start : Nat) (items : List MediaItem) : List String :=
  (List.enumFrom start items).filterMap fun pair =>
    match classifyItem oracle settings pair.1 pair.2 with
    | ItemOutcome.missing =>
      some ("Item " ++ Nat.repr (pair.1 + 1) ++ ": Missing filename or baseUrl")
    | ItemOutcome.failedFetch mf e => some (mf.filename ++ ": " ++ e)
    | ItemOutcome.fetched _ _ => none

/-- The observable snapshots recorded strictly after the first `k` items
have been resolved (meaningful for `k ≤ items.length`): the emissions of the
loop over the remaining items, then the final record. -/
def emitsFrom (oracle : FetchOracle) (settings : Option DownloadSettings)
    (tempDir : String) (items : List MediaItem) (fs : Fs) (k : Nat) :
    List DownloadProgress :=
  let a := procList oracle settings tempDir (items.take k) 0
    (initProgress items.length) fs
  let b := procList oracle settings tempDir (items.drop k) k a.prog a.fs
  b.emits ++ [finalizeRec b.prog]

/-- The decimal digit characters of `n`, most significant first: the
reference rendering that core's fuel-based `Nat.toDigits 10` is proved
equal to below. -/
def decDigits (n : Nat) : List Char :=
  if h : n < 10 then [Nat.digitChar n]
  else
    have : n / 10 < n := Nat.div_lt_self (by omega) (by omega)
    decDigits (n / 10) ++ [Nat.digitChar (n % 10)]

/-- Fetch environment of the concrete three-item scenario: item 0 succeeds
with a 3-byte payload, any other fetch throws with an HTTP 500. -/
def scenOracle : FetchOracle := fun i _ =>
  if i = 0 then Except.ok [10, 20, 30]
  else Except.error "Error: HTTP 500: Internal Server Error"

/-- The concrete three-item batch: A valid (and succeeding under
`scenOracle`), B missing its filename, C valid (and failing under
`scenOracle`). -/
def scenItems : List MediaItem :=
  [⟨"idA", "t0", MediaType.PHOTO, some ⟨"A.jpg", "urlA", "image/jpeg"⟩⟩,
    ⟨"idB", "t1", MediaType.PHOTO, some ⟨"", "urlB", "image/jpeg"⟩⟩,
    ⟨"idC", "t2", MediaType.PHOTO, some ⟨"C.jpg", "urlC", "image/jpeg"⟩⟩]

/-- The expected final progress record of the concrete scenario. -/
def scenFinal : DownloadProgress :=
  ⟨3, 1, 2, none, true,
    ["Item 2: Missing filename or baseUrl",
      "C.jpg: Error: HTTP 500: Internal Server Error"],
    [⟨"A.jpg", 3, true⟩]⟩

/-- A concrete server state with one finished session "s1" whose staging
directory "/tmp/d1" holds one staged file. -/
def scenStore : Store :=
  ⟨[("s1", scenFinal)], [("s1", "/tmp/d1")], ["/tmp/d1"],
    [("/tmp/d1/A.jpg", [10, 20, 30])]⟩

/-! ## Supporting lemmas about the orchestrator loop -/

theorem str_append_empty (s : String) : s ++ "" = s := by
  apply String.ext
  simp [String.data_append]

theorem initProgress_total (n : Nat) : (initProgress n).total = n := rfl

theorem initProgress_downloaded (n : Nat) : (initProgress n).downloaded = 0 := rfl

theorem initProgress_failed (n : Nat) : (initProgress n).failed = 0 := rfl

theorem initProgress_isComplete (n : Nat) : (initProgress n).isComplete = false := rfl

theorem progLe_refl (a : DownloadProgress) : ProgLe a a :=
  ⟨le_refl _, le_refl _, fun h => h⟩

theorem progLe_trans {a b c : DownloadProgress} (h1 : ProgLe a b)
    (h2 : ProgLe b c) : ProgLe a c :=
  ⟨le_trans h1.1 h2.1, le_trans h1.2.1 h2.2.1, fun h => h2.2.2 (h1.2.2 h)⟩

theorem progLe_chain_shift {a b : DownloadProgress} {l : List DownloadProgress}
    (hab : ProgLe a b) (h : List.Chain' ProgLe (b :: l)) :
    List.Chain' ProgLe (a :: l) := by
  cases l with
  | nil => simp
  | cons c t =>
    rw [List.chain'_cons] at h ⊢
    exact ⟨progLe_trans hab h.1, h.2⟩

theorem procItem_prog (oracle : FetchOracle) (settings : Option DownloadSettings)
    (tempDir : String) (i : Nat) (item : MediaItem) (p : DownloadProgress) (fs : Fs) :
    (procItem oracle settings tempDir i item p fs).prog.total = p.total ∧
    (procItem oracle settings tempDir i item p fs).prog.isComplete = p.isComplete ∧
    (procItem oracle settings tempDir i item p fs).prog.downloaded +
      (procItem oracle settings tempDir i item p fs).prog.failed
      = p.downloaded + p.failed + 1 ∧
    ProgLe p (procItem oracle settings tempDir i item p fs).prog := by
  cases h : classifyItem oracle settings i item <;>
    simp [procItem, h, ProgLe] <;> omega

theorem procItem_emits (oracle : FetchOracle) (settings : Option DownloadSettings)
    (tempDir : String) (i : Nat) (item : MediaItem) (p : DownloadProgress) (fs : Fs) :
    ∀ e ∈ (procItem oracle settings tempDir i item p fs).emits,
      e.total = p.total ∧ e.isComplete = p.isComplete ∧
      ProgLe p e ∧ ProgLe e (procItem oracle settings tempDir i item p fs).prog := by
  cases h : classifyItem oracle settings i item <;>
    simp [procItem, h, ProgLe]

theorem procItem_chain (oracle : FetchOracle) (settings : Option DownloadSettings)
    (tempDir : String) (i : Nat) (item : MediaItem) (p : DownloadProgress) (fs : Fs)
    (q : DownloadProgress)
    (hq : ProgLe (procItem oracle settings tempDir i item p fs).prog q) :
    List.Chain' ProgLe (p :: (procItem oracle settings tempDir i item p fs).emits ++ [q]) := by
  cases h : classifyItem oracle settings i item <;>
    simp only [procItem, h] at hq ⊢ <;>
    simp_all [List.chain'_cons, ProgLe] <;> try omega

theorem procList_prog (oracle : FetchOracle) (settings : Option DownloadSettings)
    (tempDir : String) : ∀ (l : List MediaItem) (i : Nat) (p : DownloadProgress) (fs : Fs),
    (procList oracle settings tempDir l i p fs).prog.total = p.total ∧
    (procList oracle settings tempDir l i p fs).prog.isComplete = p.isComplete ∧
    (procList oracle settings tempDir l i p fs).prog.downloaded +
      (procList oracle settings tempDir l i p fs).prog.failed
      = p.downloaded + p.failed + l.length ∧
    ProgLe p (procList oracle settings tempDir l i p fs).prog := by
  intro l
  induction l with
  | nil => intro i p fs; simpa [procList] using progLe_refl p
  | cons item rest ih =>
    intro i p fs
    have h1 := procItem_prog oracle settings tempDir i item p fs
    have h2 := ih (i + 1) (procItem oracle settings tempDir i item p fs).prog
      (procItem oracle settings tempDir i item p fs).fs
    refine ⟨?_, ?_, ?_, ?_⟩
    · simp only [procList]; rw [h2.1, h1.1]
    · simp only [procList]; rw [h2.2.1, h1.2.1]
    · simp only [procList]; rw [h2.2.2.1, h1.2.2.1]; simp [List.length_cons]; omega
    · simp only [procList]; exact progLe_trans h1.2.2.2 h2.2.2.2

theorem procList_emits (oracle : FetchOracle) (settings : Option DownloadSettings)
    (tempDir : String) : ∀ (l : List MediaItem) (i : Nat) (p : DownloadProgress) (fs : Fs),
    ∀ e ∈ (procList oracle settings tempDir l i p fs).emits,
      e.total = p.total ∧ e.isComplete = p.isComplete ∧
      ProgLe p e ∧ ProgLe e (procList oracle settings tempDir l i p fs).prog := by
  intro l
  induction l with
  | nil => intro i p fs e he; simp [procList] at he
  | cons item rest ih =>
    intro i p fs e he
    simp only [procList, List.mem_append] at he
    have h1 := procItem_prog oracle settings tempDir i item p fs
    have hrest := procList_prog oracle settings tempDir rest (i + 1)
      (procItem oracle settings tempDir i item p fs).prog
      (procItem oracle settings tempDir i item p fs).fs
    cases he with
    | inl he1 =>
      have := procItem_emits oracle settings tempDir i item p fs e he1
      exact ⟨this.1, this.2.1, this.2.2.1,
        progLe_trans this.2.2.2 hrest.2.2.2⟩
    | inr he2 =>
      have := ih (i + 1) (procItem oracle settings tempDir i item p fs).prog
        (procItem oracle settings tempDir i item p fs).fs e he2
      refine ⟨by rw [this.1, h1.1], by rw [this.2.1, h1.2.1],
        progLe_trans h1.2.2.2 this.2.2.1, this.2.2.2⟩

theorem procList_chain (oracle : FetchOracle) (settings : Option DownloadSettings)
    (tempDir : String) : ∀ (l : List MediaItem) (i : Nat) (p : DownloadProgress) (fs : Fs)
    (q : DownloadProgress),
    ProgLe (procList oracle settings tempDir l i p fs).prog q →
    List.Chain' ProgLe (p :: (procList oracle settings tempDir l i p fs).emits ++ [q]) := by
  intro l
  induction l with
  | nil =>
    intro i p fs q hq
    simp only [procList] at hq ⊢
    simpa [List.chain'_cons] using hq
  | cons item rest ih =>
    intro i p fs q hq
    simp only [procList] at hq ⊢
    have hitem := procItem_prog oracle settings tempDir i item p fs
    have htail := ih (i + 1) (procItem oracle settings tempDir i item p fs).prog
      (procItem oracle settings tempDir i item p fs).fs q hq
    cases h : classifyItem oracle settings i item <;>
      simp only [procItem, h] at htail ⊢
    · exact progLe_chain_shift
        (by simpa [procItem, h] using hitem.2.2.2) htail
    · simpa [List.chain'_cons] using
        ⟨⟨le_refl _, le_refl _, fun hh => hh⟩,
          ⟨Nat.le_succ _, le_refl _, fun hh => hh⟩, htail⟩
    · simpa [List.chain'_cons] using
        ⟨⟨le_refl _, le_refl _, fun hh => hh⟩,
          ⟨le_refl _, Nat.le_succ _, fun hh => hh⟩, htail⟩

theorem procList_append (oracle : FetchOracle) (settings : Option DownloadSettings)
    (tempDir : String) : ∀ (l1 l2 : List MediaItem) (i : Nat) (p : DownloadProgress) (fs : Fs),
    procList oracle settings tempDir (l1 ++ l2) i p fs =
      ⟨(procList oracle settings tempDir l2 (i + l1.length)
          (procList oracle settings tempDir l1 i p fs).prog
          (procList oracle settings tempDir l1 i p fs).fs).prog,
        (procList oracle settings tempDir l2 (i + l1.length)
          (procList oracle settings tempDir l1 i p fs).prog
          (procList oracle settings tempDir l1 i p fs).fs).fs,
        (procList oracle settings tempDir l1 i p fs).emits ++
          (procList oracle settings tempDir l2 (i + l1.length)
            (procList oracle settings tempDir l1 i p fs).prog
            (procList oracle settings tempDir l1 i p fs).fs).emits⟩ := by
  intro l1
  induction l1 with
  | nil => intro l2 i p fs; simp [procList]
  | cons item rest ih =>
    intro l2 i p fs
    have harith : i + (rest.length + 1) = i + 1 + rest.length := by omega
    simp only [List.cons_append, procList, List.length_cons, harith,
      List.append_eq, ih, List.append_assoc]

theorem successList_cons (oracle : FetchOracle) (settings : Option DownloadSettings)
    (i : Nat) (item : MediaItem) (rest : List MediaItem) :
    successList oracle settings i (item :: rest) =
      (match classifyItem oracle settings i item with
        | ItemOutcome.fetched mf bytes => [(⟨mf.filename, bytes.length, true⟩ : FileEntry)]
        | _ => []) ++ successList oracle settings (i + 1) rest := by
  cases h : classifyItem oracle settings i item <;>
    simp [successList, List.enumFrom, List.filterMap_cons, h]

theorem errorList_cons (oracle : FetchOracle) (settings : Option DownloadSettings)
    (i : Nat) (item : MediaItem) (rest : List MediaItem) :
    errorList oracle settings i (item :: rest) =
      (match classifyItem oracle settings i item with
        | ItemOutcome.missing => ["Item " ++ Nat.repr (i + 1) ++ ": Missing filename or baseUrl"]
        | ItemOutcome.failedFetch mf e => [mf.filename ++ ": " ++ e]
        | ItemOutcome.fetched _ _ => []) ++ errorList oracle settings (i + 1) rest := by
  cases h : classifyItem oracle settings i item <;>
    simp [errorList, List.enumFrom, List.filterMap_cons, h]

theorem procList_record (oracle : FetchOracle) (settings : Option DownloadSettings)
    (tempDir : String) : ∀ (l : List MediaItem) (i : Nat) (p : DownloadProgress) (fs : Fs),
    (procList oracle settings tempDir l i p fs).prog.files
      = p.files ++ successList oracle settings i l ∧
    (procList oracle settings tempDir l i p fs).prog.errors
      = p.errors ++ errorList oracle settings i l := by
  intro l
  induction l with
  | nil => intro i p fs; simp [procList, successList, errorList, List.enumFrom]
  | cons item rest ih =>
    intro i p fs
    have h2 := ih (i + 1) (procItem oracle settings tempDir i item p fs).prog
      (procItem oracle settings tempDir i item p fs).fs
    cases h : classifyItem oracle settings i item <;>
      simp only [procItem, h] at h2 <;>
      simp [procList, procItem, h, h2.1, h2.2, successList_cons, errorList_cons]

theorem lookup_eraseEntry_self {β : Type} (m : List (String × β)) (k : String) :
    List.lookup k (eraseEntry m k) = none := by
  induction m with
  | nil => rfl
  | cons kv t ih =>
    by_cases h : kv.1 = k
    · simpa [eraseEntry, List.filter_cons, h] using ih
    · have hne : (k == kv.1) = false := beq_eq_false_iff_ne.mpr (fun hh => h hh.symm)
      simpa [eraseEntry, List.filter_cons, h, List.lookup, hne] using ih

theorem lookup_append_none {β : Type} (l1 l2 : List (String × β)) (k : String)
    (h : List.lookup k l1 = none) : List.lookup k (l1 ++ l2) = List.lookup k l2 := by
  induction l1 with
  | nil => simp
  | cons kv t ih =>
    by_cases hk : k = kv.1
    · have hb : (k == kv.1) = true := beq_iff_eq.mpr hk
      simp [List.lookup, hb] at h
    · have hne : (k == kv.1) = false := beq_eq_false_iff_ne.mpr hk
      simp only [List.cons_append, List.lookup, hne] at h ⊢
      exact ih h

theorem lookup_setEntry_self {β : Type} (m : List (String × β)) (k : String) (v : β) :
    List.lookup k (setEntry m k v) = some v := by
  have h1 : setEntry m k v = eraseEntry m k ++ [(k, v)] := rfl
  rw [h1, lookup_append_none _ _ _ (lookup_eraseEntry_self m k)]
  simp [List.lookup]

/-! ## The claims -/

/-- C1: a per-item failure (missing filename/locator or a throwing fetch)
never aborts the batch — in every run each item of the batch is resolved
(one success or failure counted per item) and the record ends complete; and
on the concrete 3-item batch (A valid and succeeding with 3 bytes, B missing
its filename, C valid with the remote replying HTTP 500) the final record is
exactly total 3, downloadedCount 1, failedCount 2, complete, files = [A],
errors = [index-based message for B, "C.jpg: " followed by the error]. -/
theorem c1_fault_isolation :
    (∀ (oracle : FetchOracle) (settings : Option DownloadSettings) (tempDir : String)
      (items : List MediaItem) (fs : Fs),
      (runDownloads oracle settings tempDir items fs).prog.downloaded +
        (runDownloads oracle settings tempDir items fs).prog.failed = items.length ∧
      (runDownloads oracle settings tempDir items fs).prog.isComplete = true) ∧
    (runDownloads scenOracle none "/tmp/google-photos-sync-demo" scenItems []).prog
      = scenFinal := by
  constructor
  · intro oracle settings tempDir items fs
    have h := procList_prog oracle settings tempDir items 0 (initProgress items.length) fs
    have hc := h.2.2.1
    simp [initProgress] at hc
    constructor
    · simp [runDownloads, finalizeRec, initProgress]
      omega
    · simp [runDownloads, finalizeRec]
  · rfl

/-- C4: items are processed strictly sequentially in input order, so the
final files list is exactly the successfully fetched items' entries in input
order, and the final errors list exactly the failed items' messages in input
order. -/
theorem c4_order_preservation (oracle : FetchOracle) (settings : Option DownloadSettings)
    (tempDir : String) (items : List MediaItem) (fs : Fs) :
    (runDownloads oracle settings tempDir items fs).prog.files
      = successList oracle settings 0 items ∧
    (runDownloads oracle settings tempDir items fs).prog.errors
      = errorList oracle settings 0 items := by
  have h := procList_record oracle settings tempDir items 0 (initProgress items.length) fs
  simp [initProgress] at h
  constructor <;> simp [runDownloads, finalizeRec, initProgress, h.1, h.2]

/-- C3: over the observable snapshots of one batch run, `downloadedCount`
and `failedCount` are monotonically non-decreasing and `isComplete` never
reverts (the snapshots form a `ProgLe` chain); every snapshot satisfies
`downloaded + failed ≤ total` with `total` pinned to the batch size; a
snapshot with `isComplete = true` always shows `downloaded + failed =
total`; and every snapshot recorded strictly after the first `k` items were
resolved shows `downloaded + failed ≥ k` (the observable trace splits as the
first-`k` emissions followed by `emitsFrom k`). -/
theorem c3_progress_invariants (oracle : FetchOracle) (settings : Option DownloadSettings)
    (tempDir : String) (items : List MediaItem) (fs : Fs) :
    List.Chain' ProgLe (runDownloads oracle settings tempDir items fs).emits ∧
    (∀ e ∈ (runDownloads oracle settings tempDir items fs).emits,
      e.total = items.length ∧ e.downloaded + e.failed ≤ items.length) ∧
    (∀ e ∈ (runDownloads oracle settings tempDir items fs).emits,
      e.isComplete = true → e.downloaded + e.failed = items.length) ∧
    (∀ k : Nat, k ≤ items.length →
      (runDownloads oracle settings tempDir items fs).emits
        = (procList oracle settings tempDir (items.take k) 0
            (initProgress items.length) fs).emits
          ++ emitsFrom oracle settings tempDir items fs k ∧
      ∀ e ∈ emitsFrom oracle settings tempDir items fs k,
        k ≤ e.downloaded + e.failed) := by
  have hprog := procList_prog oracle settings tempDir items 0 (initProgress items.length) fs
  have hsum := hprog.2.2.1
  rw [initProgress_downloaded, initProgress_failed] at hsum
  refine ⟨?_, ?_, ?_, ?_⟩
  · have hchain := procList_chain oracle settings tempDir items 0 (initProgress items.length) fs
      (finalizeRec (procList oracle settings tempDir items 0 (initProgress items.length) fs).prog)
      ⟨le_refl _, le_refl _, fun _ => rfl⟩
    simpa [runDownloads] using hchain.tail
  · intro e he
    simp only [runDownloads, List.mem_append, List.mem_singleton] at he
    rcases he with he | he
    · have h1 := procList_emits oracle settings tempDir items 0 (initProgress items.length) fs e he
      obtain ⟨hd, hf, _⟩ := h1.2.2.2
      constructor
      · rw [h1.1, initProgress_total]
      · omega
    · subst he
      constructor
      · simp only [finalizeRec]
        rw [hprog.1, initProgress_total]
      · simp only [finalizeRec]
        omega
  · intro e he hcomp
    simp only [runDownloads, List.mem_append, List.mem_singleton] at he
    rcases he with he | he
    · have h1 := procList_emits oracle settings tempDir items 0 (initProgress items.length) fs e he
      rw [h1.2.1, initProgress_isComplete] at hcomp
      exact absurd hcomp (by simp)
    · subst he
      simp only [finalizeRec]
      omega
  · intro k hk
    have hsplit := procList_append oracle settings tempDir (items.take k) (items.drop k) 0
      (initProgress items.length) fs
    rw [List.take_append_drop] at hsplit
    have hidx : 0 + (items.take k).length = k := by
      simp [List.length_take, Nat.min_eq_left hk]
    rw [hidx] at hsplit
    have ha := procList_prog oracle settings tempDir (items.take k) 0
      (initProgress items.length) fs
    have hasum := ha.2.2.1
    rw [initProgress_downloaded, initProgress_failed, List.length_take,
      Nat.min_eq_left hk] at hasum
    constructor
    · simp only [runDownloads, emitsFrom]
      rw [hsplit]
      simp [List.append_assoc]
    · intro e he
      simp only [emitsFrom, List.mem_append, List.mem_singleton] at he
      rcases he with he | he
      · have hb := procList_emits oracle settings tempDir (items.drop k) k
          (procList oracle settings tempDir (items.take k) 0 (initProgress items.length) fs).prog
          (procList oracle settings tempDir (items.take k) 0 (initProgress items.length) fs).fs
          e he
        obtain ⟨hd, hf, _⟩ := hb.2.2.1
        omega
      · subst he
        have hb := procList_prog oracle settings tempDir (items.drop k) k
          (procList oracle settings tempDir (items.take k) 0 (initProgress items.length) fs).prog
          (procList oracle settings tempDir (items.take k) 0 (initProgress items.length) fs).fs
        obtain ⟨hd, hf, _⟩ := hb.2.2.2
        simp only [finalizeRec]
        omega

/-- Witness for C3 at the concrete three-item scenario: k = 2 is within the
batch, the final record is among the snapshots recorded after the first two
items, and it indeed shows at least two resolved items. -/
theorem c3_progress_invariants_witness :
    (2 ≤ scenItems.length ∧
      scenFinal ∈ emitsFrom scenOracle none "/tmp/google-photos-sync-demo" scenItems [] 2) ∧
    2 ≤ scenFinal.downloaded + scenFinal.failed :=
  ⟨⟨by decide, by decide⟩,
    ((c3_progress_invariants scenOracle none "/tmp/google-photos-sync-demo" scenItems []).2.2.2
      2 (by decide)).2 scenFinal (by decide)⟩

/-- C2: locator derivation is a pure function of
(remoteLocator, type, mimeType, options) — determinism and freedom from
side effects are inherent in it being a Lean function — and follows the
claimed case table: no options gives "=d" for images and "=dv" for videos;
video thumbnail quality gives "=w1280-h720", with "-no" appended under
overlay removal; any other video quality gives "=dv"; image original
quality gives "=d"; other image qualities give "=w{W}-h{H}" with the
dimensions from nonzero explicit overrides or from the preset table
(2048, 1024, 512), with "-c" appended under crop; and
(base, PHOTO, "image/jpeg", imageQuality medium) gives "=w1024-h1024". -/
theorem c2_locator_derivation (base mime : String) (t : MediaType) (s : DownloadSettings) :
    (isVideoFlag t mime = true →
      generateDownloadUrl base t mime none = base ++ "=dv") ∧
    (isVideoFlag t mime = false →
      generateDownloadUrl base t mime none = base ++ "=d") ∧
    (isVideoFlag t mime = true → s.videoQuality = VideoQuality.thumbnail →
      s.videoRemoveOverlay = false →
      generateDownloadUrl base t mime (some s) = base ++ "=w1280-h720") ∧
    (isVideoFlag t mime = true → s.videoQuality = VideoQuality.thumbnail →
      s.videoRemoveOverlay = true →
      generateDownloadUrl base t mime (some s) = base ++ "=w1280-h720-no") ∧
    (isVideoFlag t mime = true → s.videoQuality ≠ VideoQuality.thumbnail →
      generateDownloadUrl base t mime (some s) = base ++ "=dv") ∧
    (isVideoFlag t mime = false → s.imageQuality = ImageQuality.original →
      generateDownloadUrl base t mime (some s) = base ++ "=d") ∧
    (∀ w h : Nat, isVideoFlag t mime = false → s.imageQuality ≠ ImageQuality.original →
      s.imageMaxWidth = some w → s.imageMaxHeight = some h → w ≠ 0 → h ≠ 0 →
      generateDownloadUrl base t mime (some s)
        = base ++ "=" ++ ("w" ++ Nat.repr w ++ "-h" ++ Nat.repr h
            ++ if s.imageCrop then "-c" else "")) ∧
    (∀ w h : Nat, isVideoFlag t mime = false →
      imagePreset s.imageQuality = some (w, h) →
      (natTruthy s.imageMaxWidth && natTruthy s.imageMaxHeight) = false →
      generateDownloadUrl base t mime (some s)
        = base ++ "=" ++ ("w" ++ Nat.repr w ++ "-h" ++ Nat.repr h
            ++ if s.imageCrop then "-c" else "")) ∧
    (∀ s2 : DownloadSettings, s2.imageQuality = ImageQuality.medium →
      s2.imageMaxWidth = none → s2.imageMaxHeight = none → s2.imageCrop = false →
      generateDownloadUrl base MediaType.PHOTO "image/jpeg" (some s2)
        = base ++ "=w1024-h1024") := by
  refine ⟨?_, ?_, ?_, ?_, ?_, ?_, ?_, ?_, ?_⟩
  · intro hv; simp [generateDownloadUrl, hv]
  · intro hv; simp [generateDownloadUrl, hv]
  · intro hv hq ho
    simp [generateDownloadUrl, hv, hq, ho]
    rw [String.append_assoc]; rfl
  · intro hv hq ho
    simp [generateDownloadUrl, hv, hq, ho]
    rw [String.append_assoc]; rfl
  · intro hv hq
    cases h : s.videoQuality <;> simp_all [generateDownloadUrl, hv]
  · intro hv hq
    have hbq : (s.imageQuality == ImageQuality.original) = true := by
      rw [hq]; decide
    simp [generateDownloadUrl, hv, hbq]
  · intro w h hv hq hw hh hw0 hh0
    have hbq : (s.imageQuality == ImageQuality.original) = false := by
      cases hqq : s.imageQuality
      · exact absurd hqq hq
      all_goals rfl
    simp [generateDownloadUrl, hv, hbq, natTruthy, hw, hh, hw0, hh0]
    by_cases hcrop : s.imageCrop = true <;>
      simp [hcrop, str_append_empty]
  · intro w h hv hp htr
    have hqo : s.imageQuality ≠ ImageQuality.original := by
      intro hq; rw [hq] at hp; simp [imagePreset] at hp
    have hbq : (s.imageQuality == ImageQuality.original) = false := by
      cases hqq : s.imageQuality
      · exact absurd hqq hqo
      all_goals rfl
    rw [Bool.and_eq_false_iff] at htr
    simp [generateDownloadUrl, hv, hbq, hp, htr]
    rcases htr with htr | htr <;>
      simp [htr, hp] <;>
      by_cases hcrop : s.imageCrop = true <;>
      simp [hcrop, str_append_empty]
  · intro s2 hq hw hh hc
    have h1 : (MediaType.PHOTO == MediaType.VIDEO) = false := by decide
    have h2 : (ImageQuality.medium == ImageQuality.original) = false := by decide
    simp [generateDownloadUrl, isVideoFlag, strStartsWith, hq, hw, hh, hc,
      natTruthy, imagePreset, h1, h2]
    rw [String.append_assoc]; rfl

/-- Witness for C2: a PHOTO with an image mimeType is not classified video,
and medium image quality with no overrides and no crop derives
base + "=w1024-h1024". -/
theorem c2_locator_derivation_witness :
    isVideoFlag MediaType.PHOTO "image/jpeg" = false ∧
    generateDownloadUrl "B" MediaType.PHOTO "image/jpeg"
      (some ⟨true, true, ImageQuality.medium, none, none, false, VideoQuality.original, false⟩)
      = "B" ++ "=w1024-h1024" :=
  ⟨by decide,
    (c2_locator_derivation "B" "image/jpeg" MediaType.PHOTO
      ⟨true, true, ImageQuality.medium, none, none, false, VideoQuality.original, false⟩
      ).2.2.2.2.2.2.2.2
      ⟨true, true, ImageQuality.medium, none, none, false, VideoQuality.original, false⟩
      rfl rfl rfl rfl⟩

/-- C10: locator derivation classifies an item as video iff its type is
VIDEO or its mimeType starts with "video/"; in particular a PHOTO item with
a video mimeType receives the optionless video suffix "=dv", not "=d". -/
theorem c10_video_classification (base mime : String) (t : MediaType) :
    (isVideoFlag t mime = true ↔
      (t = MediaType.VIDEO ∨ strStartsWith mime "video/" = true)) ∧
    (strStartsWith mime "video/" = true →
      generateDownloadUrl base MediaType.PHOTO mime none = base ++ "=dv") := by
  constructor
  · simp [isVideoFlag, Bool.or_eq_true, beq_iff_eq]
  · intro hs
    simp [generateDownloadUrl, isVideoFlag, hs]

/-- Witness for C10: "video/mp4" starts with "video/", and a PHOTO carrying
it derives "=dv". -/
theorem c10_video_classification_witness :
    strStartsWith "video/mp4" "video/" = true ∧
    generateDownloadUrl "B" MediaType.PHOTO "video/mp4" none = "B" ++ "=dv" :=
  ⟨by decide,
    (c10_video_classification "B" "video/mp4" MediaType.PHOTO).2 (by decide)⟩

/-- C5 (amended): a staging-directory creation failure does NOT fail the
batch start or propagate to the caller of POST /api/download — the promise
rejection is swallowed by `.catch(console.error)`.  The handler still
replies success with a fresh session id, while the background task dies
before recording anything: the store (progress map, staging map, filesystem)
is unchanged, so polls for the returned id only ever see not-found. -/
theorem c5_staging_failure_isolated (oracle : FetchOracle) (body : SessionData)
    (now : Nat) (st : Store)
    (habs : tmpDirFor (sessionIdOf now) ∉ st.fsDirs) :
    (handleDownload oracle (some body) now false st).1.status = 200 ∧
    (handleDownload oracle (some body) now false st).1.success = true ∧
    (handleDownload oracle (some body) now false st).1.progressId
      = some (sessionIdOf now) ∧
    (handleDownload oracle (some body) now false st).2 = st := by
  refine ⟨rfl, rfl, rfl, ?_⟩
  simp [handleDownload, processDownloads, habs]

/-- Counterexample to C5 as stated: on an empty store with `mkdirSync`
failing, the caller still receives a success response carrying a session id,
and no progress record or staging mapping exists for it. -/
theorem c5_counterexample :
    (handleDownload scenOracle (some ⟨"tok", "sess", scenItems, none, "ts"⟩) 1234 false
        (⟨[], [], [], []⟩ : Store)).1
      = ⟨200, true, some "download-1234"⟩ ∧
    (handleDownload scenOracle (some ⟨"tok", "sess", scenItems, none, "ts"⟩) 1234 false
        (⟨[], [], [], []⟩ : Store)).2
      = (⟨[], [], [], []⟩ : Store) := by
  exact ⟨rfl, rfl⟩

/-- Witness for C5 (amended) at a concrete input. -/
theorem c5_staging_failure_isolated_witness :
    tmpDirFor (sessionIdOf 1234) ∉ (⟨[], [], [], []⟩ : Store).fsDirs ∧
    (handleDownload scenOracle (some ⟨"tok", "sess", scenItems, none, "ts"⟩) 1234 false
        (⟨[], [], [], []⟩ : Store)).2
      = (⟨[], [], [], []⟩ : Store) :=
  ⟨by decide,
    (c5_staging_failure_isolated scenOracle ⟨"tok", "sess", scenItems, none, "ts"⟩ 1234
      (⟨[], [], [], []⟩ : Store) (by decide)).2.2.2⟩

/-- C6 (amended): the POST /api/download handler performs no input
validation: only an unparseable body yields a 400.  A parseable body with a
missing (empty) credential and an empty items list is accepted: the handler
replies success with a session id and the background task runs anyway,
recording a progress record that is immediately complete with total 0. -/
theorem c6_no_input_validation (oracle : FetchOracle) (now : Nat) (st : Store)
    (sid ts : String) :
    (handleDownload oracle none now true st).1 = ⟨400, false, none⟩ ∧
    (handleDownload oracle (some ⟨"", sid, [], none, ts⟩) now true st).1.status = 200 ∧
    (handleDownload oracle (some ⟨"", sid, [], none, ts⟩) now true st).1.success = true ∧
    (handleDownload oracle (some ⟨"", sid, [], none, ts⟩) now true st).2.progressMap.lookup
        (sessionIdOf now) = some ⟨0, 0, 0, none, true, [], []⟩ := by
  refine ⟨rfl, rfl, rfl, ?_⟩
  simp [handleDownload, processDownloads, runDownloads, procList, initProgress,
    finalizeRec, lookup_setEntry_self]

/-- Counterexample to C6 as stated: the empty-credential empty-items request
is answered 200 with success (not a 4xx), and a progress record is
created. -/
theorem c6_counterexample :
    (handleDownload scenOracle (some ⟨"", "s", [], none, "t"⟩) 99 true
        (⟨[], [], [], []⟩ : Store)).1
      = ⟨200, true, some "download-99"⟩ ∧
    (handleDownload scenOracle (some ⟨"", "s", [], none, "t"⟩) 99 true
        (⟨[], [], [], []⟩ : Store)).2.progressMap
      = [("download-99", ⟨0, 0, 0, none, true, [], []⟩)] := by
  exact ⟨rfl, rfl⟩

/-- C7: cleanup is idempotent and total: with the filesystem removal
succeeding, a cleanup call always replies success; a successful removal
deletes both the progress entry and the staging mapping; a second cleanup of
the same session replies success and leaves the state untouched (whatever
the filesystem would then do), as does cleanup of an unknown session id. -/
theorem c7_cleanup_idempotent (st : Store) (pid : String) :
    ((handleCleanup pid true st).1.success = true) ∧
    (∀ rm2 : Bool,
      (handleCleanup pid rm2 (handleCleanup pid true st).2).1.success = true ∧
      (handleCleanup pid rm2 (handleCleanup pid true st).2).2
        = (handleCleanup pid true st).2) ∧
    (∀ d : String, st.dirsMap.lookup pid = some d → d ∈ st.fsDirs →
      (handleCleanup pid true st).2.progressMap.lookup pid = none ∧
      (handleCleanup pid true st).2.dirsMap.lookup pid = none) ∧
    (st.dirsMap.lookup pid = none → handleCleanup pid true st = (⟨200, true⟩, st)) := by
  refine ⟨?_, ?_, ?_, ?_⟩
  · cases hl : st.dirsMap.lookup pid with
    | none => simp [handleCleanup, hl]
    | some d =>
      by_cases hm : d ∈ st.fsDirs
      · simp [handleCleanup, hl, hm]
      · simp [handleCleanup, hl, hm]
  · intro rm2
    cases hl : st.dirsMap.lookup pid with
    | none => simp [handleCleanup, hl]
    | some d =>
      by_cases hm : d ∈ st.fsDirs
      · have h2 : List.lookup pid (eraseEntry st.dirsMap pid) = none :=
          lookup_eraseEntry_self _ _
        simp [handleCleanup, hl, hm, h2]
      · simp [handleCleanup, hl, hm]
  · intro d hl hm
    have h2 := lookup_eraseEntry_self st.progressMap pid
    have h3 := lookup_eraseEntry_self st.dirsMap pid
    simp [handleCleanup, hl, hm, h2, h3]
  · intro hl
    simp [handleCleanup, hl]

/-- Witness for C7 at a concrete store: session "s1" exists (its staging
directory is on disk) and both its entries are gone after cleanup; "s2" is
unknown and its cleanup is a successful no-op. -/
theorem c7_cleanup_idempotent_witness :
    (scenStore.dirsMap.lookup "s1" = some "/tmp/d1" ∧ "/tmp/d1" ∈ scenStore.fsDirs ∧
      (handleCleanup "s1" true scenStore).2.progressMap.lookup "s1" = none ∧
      (handleCleanup "s1" true scenStore).2.dirsMap.lookup "s1" = none) ∧
    (scenStore.dirsMap.lookup "s2" = none ∧
      handleCleanup "s2" true scenStore = (⟨200, true⟩, scenStore)) :=
  ⟨⟨by decide, by decide,
      ((c7_cleanup_idempotent scenStore "s1").2.2.1 "/tmp/d1" (by decide) (by decide)).1,
      ((c7_cleanup_idempotent scenStore "s1").2.2.1 "/tmp/d1" (by decide) (by decide)).2⟩,
    ⟨by decide, (c7_cleanup_idempotent scenStore "s2").2.2.2 (by decide)⟩⟩

/-- C9: serving GET /api/progress and GET /api/file never modifies server
state: for every store, both read handlers return the progress map, the
staging-directory map and the staged files exactly as given (only the POST
/api/download and POST /api/cleanup handlers produce a changed store). -/
theorem c9_read_handlers_pure (st : Store) :
    (∀ idArg : Option String, (handleProgress idArg st).2 = st) ∧
    (∀ progressIdArg filenameArg : Option String,
      (handleFile progressIdArg filenameArg st).2 = st) := by
  constructor
  · intro idArg
    cases idArg with
    | none => rfl
    | some pid =>
      by_cases h : pid = ""
      · simp [handleProgress, h]
      · simp only [handleProgress, if_neg h]
        cases st.progressMap.lookup pid <;> rfl
  · intro pArg fArg
    cases pArg with
    | none => cases fArg <;> rfl
    | some pid =>
      cases fArg with
      | none => rfl
      | some fn =>
        by_cases h : pid = "" ∨ fn = ""
        · simp [handleFile, h]
        · simp only [handleFile, if_neg h]
          cases hd : st.dirsMap.lookup pid with
          | none => rfl
          | some dir =>
            cases hf : st.fsFiles.lookup (dir ++ "/" ++ fn) <;> simp [hf]

/-- Unfolding equation of `decDigits`. -/
theorem decDigits_eq (n : Nat) : decDigits n =
    if n < 10 then [Nat.digitChar n]
    else decDigits (n / 10) ++ [Nat.digitChar (n % 10)] := by
  rw [decDigits]
  by_cases h : n < 10 <;> simp [h]

theorem decDigits_ne_nil (n : Nat) : decDigits n ≠ [] := by
  rw [decDigits_eq]
  by_cases h : n < 10 <;> simp [h]

/-- Core's fuel-based rendering agrees with `decDigits` once the fuel
covers the number. -/
theorem toDigitsCore_eq_decDigits : ∀ (fuel n : Nat) (ds : List Char), n ≤ fuel →
    Nat.toDigitsCore 10 (fuel + 1) n ds = decDigits n ++ ds := by
  intro fuel
  induction fuel with
  | zero =>
    intro n ds hn
    have h0 : n = 0 := Nat.le_zero.mp hn
    subst h0
    simp [Nat.toDigitsCore, decDigits_eq]
  | succ f ih =>
    intro n ds hn
    by_cases h10 : n / 10 = 0
    · have hlt : n < 10 := by
        have := (Nat.div_eq_zero_iff (by norm_num : (0 : Nat) < 10)).mp h10
        exact this
      rw [decDigits_eq]
      simp [Nat.toDigitsCore, h10, hlt, Nat.mod_eq_of_lt hlt]
    · have hge : ¬ n < 10 := by
        intro hlt
        exact h10 ((Nat.div_eq_zero_iff (by norm_num : (0 : Nat) < 10)).mpr hlt)
      have hpos : 0 < n := by omega
      have hdivlt : n / 10 < n := Nat.div_lt_self hpos (by norm_num)
      have hdivle : n / 10 ≤ f := by omega
      have hstep : Nat.toDigitsCore 10 (f + 1 + 1) n ds
          = Nat.toDigitsCore 10 (f + 1) (n / 10) (Nat.digitChar (n % 10) :: ds) := by
        simp [Nat.toDigitsCore, h10]
      rw [hstep, ih (n / 10) (Nat.digitChar (n % 10) :: ds) hdivle, decDigits_eq n]
      simp [hge]

/-- `Nat.repr` renders exactly the `decDigits` characters. -/
theorem repr_eq_decDigits (n : Nat) : Nat.repr n = (decDigits n).asString := by
  have h := toDigitsCore_eq_decDigits n n [] (le_refl n)
  simp only [Nat.repr, Nat.toDigits]
  rw [h, List.append_nil]

/-- `Nat.digitChar` is injective on single digits. -/
theorem digitChar_inj : ∀ a < 10, ∀ b < 10, Nat.digitChar a = Nat.digitChar b → a = b := by
  decide

theorem decDigits_inj : ∀ a b : Nat, decDigits a = decDigits b → a = b := by
  intro a
  induction a using Nat.strong_induction_on with
  | _ a ih =>
    intro b h
    by_cases ha : a < 10 <;> by_cases hb : b < 10
    · rw [decDigits_eq a, decDigits_eq b] at h
      simp [ha, hb] at h
      exact digitChar_inj a ha b hb h
    · rw [decDigits_eq a, decDigits_eq b] at h
      simp [ha, hb] at h
      have hlen := congrArg List.length h
      simp only [List.length_singleton, List.length_append] at hlen
      have hnil : decDigits (b / 10) = [] := List.length_eq_zero.mp (by omega)
      exact absurd hnil (decDigits_ne_nil _)
    · rw [decDigits_eq a, decDigits_eq b] at h
      simp [ha, hb] at h
      have hlen := congrArg List.length h
      simp only [List.length_singleton, List.length_append] at hlen
      have hnil : decDigits (a / 10) = [] := List.length_eq_zero.mp (by omega)
      exact absurd hnil (decDigits_ne_nil _)
    · rw [decDigits_eq a, decDigits_eq b] at h
      simp [ha, hb] at h
      have hrev := congrArg List.reverse h
      simp only [List.reverse_append, List.reverse_cons, List.reverse_nil,
        List.nil_append, List.singleton_append, List.cons.injEq] at hrev
      have hmod : a % 10 = b % 10 :=
        digitChar_inj (a % 10) (Nat.mod_lt a (by norm_num)) (b % 10)
          (Nat.mod_lt b (by norm_num)) hrev.1
      have hdivs : decDigits (a / 10) = decDigits (b / 10) :=
        List.reverse_injective hrev.2
      have hdiv : a / 10 = b / 10 :=
        ih (a / 10) (Nat.div_lt_self (by omega) (by norm_num)) (b / 10) hdivs
      have h1 := Nat.div_add_mod a 10
      have h2 := Nat.div_add_mod b 10
      omega

theorem sessionIdOf_inj (n m : Nat) (h : sessionIdOf n = sessionIdOf m) : n = m := by
  have hdata := congrArg String.data h
  simp only [sessionIdOf, String.data_append] at hdata
  have hrepr : (Nat.repr n).data = (Nat.repr m).data :=
    List.append_cancel_left hdata
  have h2 : Nat.repr n = Nat.repr m := String.ext hrepr
  rw [repr_eq_decDigits, repr_eq_decDigits] at h2
  have h3 : decDigits n = decDigits m := by
    have := congrArg String.data h2
    simpa [List.asString] using this
  exact decDigits_inj n m h3

/-- C8 (amended): the session id derived from the clock is unique exactly up
to the clock's millisecond resolution — two start calls observing distinct
Date.now() values always receive distinct ids (calls within the same
millisecond collide, as the counterexample records). -/
theorem c8_distinct_clock_ids (n m : Nat) (h : n ≠ m) :
    sessionIdOf n ≠ sessionIdOf m :=
  fun hc => h (sessionIdOf_inj n m hc)

/-- Witness for C8 (amended) at two concrete adjacent clock values. -/
theorem c8_distinct_clock_ids_witness :
    (1700000000000 : Nat) ≠ 1700000000001 ∧
    sessionIdOf 1700000000000 ≠ sessionIdOf 1700000000001 :=
  ⟨by decide, c8_distinct_clock_ids 1700000000000 1700000000001 (by decide)⟩

/-- Counterexample to C8 as stated: two distinct start calls (different
bodies, different stores) served within the same clock millisecond receive
the same session id. -/
theorem c8_counterexample :
    (handleDownload scenOracle (some ⟨"t1", "sA", [], none, "x"⟩) 1700000000000 true
        (⟨[], [], [], []⟩ : Store)).1.progressId
      = (handleDownload scenOracle (some ⟨"t2", "sB", scenItems, none, "y"⟩) 1700000000000 true
        (⟨[("k", scenFinal)], [], [], []⟩ : Store)).1.progressId := by
  rfl

end PhotosSync
